import Mathlib

/-!
Verification of the `lxd_built_image` Terraform resource
(`src/lxd/resource_lxd_built_image.go`).

The Go source is shallowly embedded: strings are Lean `String`s, the
external LXD store and the filesystem are explicit parameters (success
flags, stored alias lists, lookup results), and each lifecycle function
(`Create`, `Read`, `Update`, `Delete`, `Exists`) becomes a pure Lean
function from its environment to an outcome record that records the
returned error, the operations issued against the store, and the
persisted resource id.
-/

namespace BuiltImage

/-- The composite resource identity (source: `type builtImageID`,
lines 367-370): a remote-store selector and a content fingerprint. -/
structure builtImageID where
  remote : String
  fingerprint : String
  deriving DecidableEq, Repr

/-- Source: `newbuiltImageID` (lines 372-377). -/
def newbuiltImageID (remote fingerprint : String) : builtImageID :=
  { remote := remote, fingerprint := fingerprint }

/-- Model of Go `strings.SplitN(s, sep, 2)` on the character list of `s`:
returns the part before the first separator, and `some rest` when a
separator was found (so that `parts` has two elements), `none` when not
(so that `parts` has a single element and `parts[1]` is out of bounds). -/
def splitN2 (sep : Char) : List Char → List Char × Option (List Char)
  | [] => ([], none)
  | c :: cs =>
    if c = sep then ([], some cs)
    else
      let r := splitN2 sep cs
      (c :: r.1, r.2)

/-- Source: `newbuiltImageIDFromResourceID` (lines 379-385):
`parts := strings.SplitN(id, "/", 2)` followed by unchecked accesses
`parts[0]` and `parts[1]`. The access `parts[1]` is out of bounds
(a Go runtime panic) when `id` has no `/`; the embedding returns `none`
for that panic. -/
def newbuiltImageIDFromResourceID (id : String) : Option builtImageID :=
  match splitN2 '/' id.data with
  | (r, some f) => some { remote := String.mk r, fingerprint := String.mk f }
  | (_, none) => none

/-- Source: `(id builtImageID) resourceID()` (lines 387-389):
`fmt.Sprintf("%s/%s", id.remote, id.fingerprint)`. -/
def builtImageID.resourceID (id : builtImageID) : String :=
  id.remote ++ "/" ++ id.fingerprint

theorem splitN2_not_mem (sep : Char) :
    ∀ (l : List Char), sep ∉ l → splitN2 sep l = (l, none)
  | [], _ => rfl
  | c :: cs, h => by
    have hc : ¬ c = sep := fun hcs => h (hcs ▸ List.mem_cons_self c cs)
    have ih := splitN2_not_mem sep cs (fun hm => h (List.mem_cons_of_mem c hm))
    simp [splitN2, hc, ih]

theorem splitN2_append (sep : Char) :
    ∀ (l r : List Char), sep ∉ l → splitN2 sep (l ++ sep :: r) = (l, some r)
  | [], r, _ => by simp [splitN2]
  | c :: cs, r, h => by
    have hc : ¬ c = sep := fun hcs => h (hcs ▸ List.mem_cons_self c cs)
    have ih := splitN2_append sep cs r (fun hm => h (List.mem_cons_of_mem c hm))
    simp [splitN2, hc, ih]

theorem splitN2_mem (sep : Char) :
    ∀ (l : List Char), sep ∈ l →
      splitN2 sep l = (l.takeWhile (· ≠ sep), some (l.dropWhile (· ≠ sep)).tail)
  | c :: cs, h => by
    by_cases hc : c = sep
    · subst hc
      simp [splitN2, List.takeWhile, List.dropWhile]
    · have hmem : sep ∈ cs := by
        rcases List.mem_cons.mp h with h1 | h2
        · exact absurd h1.symm hc
        · exact h2
      have ih := splitN2_mem sep cs hmem
      have hcb : (c ≠ sep : Bool) = true := by simp [hc]
      simp [splitN2, hc, ih, List.takeWhile_cons, List.dropWhile_cons, hcb]

/-! ### Aliases and the two reconciliation paths -/

/-- Source: `api.ImageAlias` (the field used by this resource is `Name`). -/
structure ImageAlias where
  name : String
  deriving DecidableEq, Repr

/-- Source: `api.ImageAliasesEntry` as used by `GetExistingAliases`
(only its `Name` field is consulted). -/
structure ImageAliasesEntry where
  name : String
  deriving DecidableEq, Repr

/-- An alias operation issued against the store: `DeleteImageAlias(name)`
or `CreateImageAlias{Name, Target}`. -/
inductive AliasOp where
  | delete (name : String)
  | create (name target : String)
  deriving DecidableEq, Repr

def AliasOp.isDelete : AliasOp → Bool
  | .delete _ => true
  | .create _ _ => false

def AliasOp.isCreate : AliasOp → Bool
  | .delete _ => false
  | .create _ _ => true

/-- Model of Go `sort.SearchStrings(a, x)` on a sorted slice: the smallest
index `i` with `a[i] >= x` (binary search in Go; extensionally, on sorted
input, the length of the prefix of entries below `x`). -/
def searchStrings (a : List String) (x : String) : Nat :=
  (a.takeWhile (fun y => decide (y < x))).length

/-- Source: `GetExistingAliases` (lines 429-439): keeps each store entry
whose name is found in `aliases` by `sort.SearchStrings`
(`pos < len(aliases) && aliases[pos] == name`). -/
def GetExistingAliases (aliases : List String) (allAliases : List ImageAliasesEntry) :
    List ImageAliasesEntry :=
  allAliases.filter fun e =>
    decide (aliases.get? (searchStrings aliases e.name) = some e.name)

/-- The sequence of store operations issued by `ensureImageAliases`
(lines 392-426) when `GetImageAliases` returns `storeAliases`: it sorts
the requested names, deletes every existing store alias matching a
requested name, then creates every requested alias bound to
`fingerprint`. -/
def ensureImageAliasesOps (aliases : List ImageAlias)
    (storeAliases : List ImageAliasesEntry) (fingerprint : String) : List AliasOp :=
  if aliases.isEmpty then []
  else
    (GetExistingAliases (List.insertionSort (· ≤ ·) (aliases.map ImageAlias.name))
        storeAliases).map (fun a => AliasOp.delete a.name)
      ++ aliases.map (fun a => AliasOp.create a.name fingerprint)

/-- The sequence of store operations issued by the `d.HasChange("aliases")`
branch of `resourceLxdBuiltImageUpdate` (lines 250-278):
`aliasesToRemove = oldSet − newSet` is deleted, then
`aliasesToAdd = newSet − oldSet` is created with target `id.fingerprint`.
`schema.Set.List()` iteration order is modelled as the sorted order. -/
def updateAliasOps (oldSet newSet : Finset String) (fingerprint : String) : List AliasOp :=
  ((oldSet \ newSet).sort (· ≤ ·)).map AliasOp.delete
    ++ ((newSet \ oldSet).sort (· ≤ ·)).map (fun a => AliasOp.create a fingerprint)

/-- `ensureImageAliases` loop semantics (lines 408-424): every operation is
attempted; a failing operation is only logged (`Failed to remove alias` /
`Failed to create alias`) and the loop continues. Returns the attempted
operations and the log messages. -/
def runOpsBestEffort (opOk : AliasOp → Bool) : List AliasOp → List AliasOp × List AliasOp
  | [] => ([], [])
  | op :: rest =>
    let r := runOpsBestEffort opOk rest
    (op :: r.1, if opOk op then r.2 else op :: r.2)

/-- `resourceLxdBuiltImageUpdate` loop semantics (lines 257-277): each
operation's error is returned immediately (`return err`), stopping the
remaining operations. Returns the first failing operation (if any) and
the operations attempted. -/
def runOpsFailFast (opOk : AliasOp → Bool) : List AliasOp → Option AliasOp × List AliasOp
  | [] => (none, [])
  | op :: rest =>
    if opOk op then
      let r := runOpsFailFast opOk rest
      (r.1, op :: r.2)
    else (some op, [op])

/-- Source: `ensureImageAliases` (lines 392-426) with explicit store
behavior. `getAliasesOk = false` models `client.GetImageAliases()` failing
(the only case in which the function returns an error). On success the
result carries the attempted operations and the logged failures. -/
def ensureImageAliases (aliases : List ImageAlias) (getAliasesOk : Bool)
    (storeAliases : List ImageAliasesEntry) (fingerprint : String)
    (opOk : AliasOp → Bool) : Except Unit (List AliasOp × List AliasOp) :=
  if aliases.isEmpty then .ok ([], [])
  else if getAliasesOk then
    .ok (runOpsBestEffort opOk (ensureImageAliasesOps aliases storeAliases fingerprint))
  else .error ()

/-- Source: `resourceLxdBuiltImageUpdate` (lines 241-281). The id is parsed
unconditionally (`none` models the out-of-bounds panic on a slash-free id).
With `hasChange = false` the alias branch is skipped. Otherwise the diffed
delete/create operations run fail-fast: the result is the first failing
operation (returned as the function's error) and the attempted ops. -/
def resourceLxdBuiltImageUpdate (id : String) (hasChange : Bool)
    (oldSet newSet : Finset String) (opOk : AliasOp → Bool) :
    Option (Option AliasOp × List AliasOp) :=
  (newbuiltImageIDFromResourceID id).map fun bid =>
    if hasChange then runOpsFailFast opOk (updateAliasOps oldSet newSet bid.fingerprint)
    else (none, [])

/-! ### The Create pipeline -/

/-- The environment of one `resourceLxdBuiltImageCreate` invocation
(lines 65-235): success flags for each external call, the post-build
state of the working directory, the destination store's state, and the
configured resource data. -/
structure CreateEnv where
  remote : String
  tempDirOk : Bool
  tempFileOk : Bool
  writeFileOk : Bool
  stdoutPipeOk : Bool
  startOk : Bool
  waitOk : Bool
  metaPresent : Bool
  rootfsPresent : Bool
  getServerOk : Bool
  priorFingerprint : Option String
  getImageOk : Bool
  requestedAliases : List String
  storeAliasNames : List String
  openMetaOk : Bool
  openRootfsOk : Bool
  transferOk : Bool
  cancelableWaitOk : Bool
  newFingerprint : String
  getAliasesOk : Bool
  storeAliasEntries : List ImageAliasesEntry

/-- The error returned by `resourceLxdBuiltImageCreate`, by originating
call site. -/
inductive CreateErr where
  | tempDir | tempFile | writeFile | stdoutPipe | start | wait
  | getServer | getImage
  | aliasConflict (name : String)
  | openMeta | openRootfs
  | transfer | cancelableWait | getAliases
  deriving DecidableEq, Repr

/-- Observable trace of one `resourceLxdBuiltImageCreate` invocation:
the returned error, whether `dstServer.CreateImage` was called
(the transfer stage), the value of `meta_reader` handed to
`ImageCreateArgs.MetaFile`, whether the deferred `meta_reader.Close()`
ran while `meta_reader` was still nil, the alias operations issued, and
the id passed to `d.SetId`. -/
structure CreateOutcome where
  err : Option CreateErr := none
  reachedTransfer : Bool := false
  metaFileArg : Option Unit := none
  nilCloseInvoked : Bool := false
  aliasOpsIssued : List AliasOp := []
  persistedId : Option String := none
  deriving DecidableEq, Repr

/-- Create, lines 222-234: the `ensureImageAliases` call (only when
aliases were requested) and, on success, `d.SetId`. Invoked after the
transfer succeeded; `reachedTransfer` and `nilCloseInvoked` are already
true on this path (the deferred nil `meta_reader.Close()` runs on each
of these exits). -/
def stageAliases (env : CreateEnv) : CreateOutcome :=
  if env.requestedAliases.isEmpty then
    { reachedTransfer := true, metaFileArg := none, nilCloseInvoked := true,
      persistedId := some ((newbuiltImageID env.remote env.newFingerprint).resourceID) }
  else if !env.getAliasesOk then
    { err := some .getAliases, reachedTransfer := true, metaFileArg := none,
      nilCloseInvoked := true }
  else
    { reachedTransfer := true, metaFileArg := none, nilCloseInvoked := true,
      aliasOpsIssued :=
        ensureImageAliasesOps (env.requestedAliases.map ImageAlias.mk)
          env.storeAliasEntries env.newFingerprint,
      persistedId := some ((newbuiltImageID env.remote env.newFingerprint).resourceID) }

/-- Create, lines 203-220: `dstServer.CreateImage` and the cancelable
wait. `MetaFile` carries the still-nil `meta_reader` (`metaFileArg :=
none`). -/
def stageTransfer (env : CreateEnv) : CreateOutcome :=
  if !env.transferOk then
    { err := some .transfer, reachedTransfer := true, metaFileArg := none,
      nilCloseInvoked := true }
  else if !env.cancelableWaitOk then
    { err := some .cancelableWait, reachedTransfer := true, metaFileArg := none,
      nilCloseInvoked := true }
  else stageAliases env

/-- Create, lines 178-200: the two `os.Open` calls. An open fails when
the artifact file is absent (or for another I/O reason, the
`openMetaOk`/`openRootfsOk` flags). Line 181 assigns the opened metadata
file to `meta` (the provider-meta parameter), not to `meta_reader`, so
`meta_reader` stays nil; the `defer meta_reader.Close()` registered on
line 185 runs on the nil handle on every later exit. -/
def stageOpenArtifacts (env : CreateEnv) : CreateOutcome :=
  if !(env.metaPresent && env.openMetaOk) then { err := some .openMeta }
  else if !(env.rootfsPresent && env.openRootfsOk) then
    { err := some .openRootfs, nilCloseInvoked := true }
  else stageTransfer env

/-- Create, lines 156-171: the per-alias conflict check against the
destination store, which returns on the first requested alias that
already exists there, before any store mutation. -/
def stageAliasConflict (env : CreateEnv) : CreateOutcome :=
  match env.requestedAliases.find? (fun a => decide (a ∈ env.storeAliasNames)) with
  | some a => { err := some (.aliasConflict a) }
  | none => stageOpenArtifacts env

/-- Source: `resourceLxdBuiltImageCreate` (lines 65-235), embedded in
source order: the temp-dir/file and template write steps, the
distrobuilder subprocess (pipe, start, wait), then the two artifact
`os.Stat` checks of lines 121-130 — which only log, and never return;
the second even stats `meta_file` again instead of `rootfs_file` — the
server acquisition, the prior-fingerprint lookup, and the alias-conflict,
open, transfer, and alias stages. `d.SetId` (line 232) is reached only
through the success path of `stageAliases`. The trailing
`resourceLxdBuiltImageRead` call is not part of this trace. -/
def resourceLxdBuiltImageCreate (env : CreateEnv) : CreateOutcome :=
  if !env.tempDirOk then { err := some .tempDir }
  else if !env.tempFileOk then { err := some .tempFile }
  else if !env.writeFileOk then { err := some .writeFile }
  else if !env.stdoutPipeOk then { err := some .stdoutPipe }
  else if !env.startOk then { err := some .start }
  else if !env.waitOk then { err := some .wait }
  else if !env.getServerOk then { err := some .getServer }
  else if env.priorFingerprint.isSome && !env.getImageOk then { err := some .getImage }
  else stageAliasConflict env

/-! ### Read, Delete, Exists -/

/-- The image record returned by `server.GetImage` as used by Read:
creation timestamp and alias names. -/
structure ImageRecord where
  createdAt : Int
  aliases : List String
  deriving DecidableEq, Repr

/-- Result of `server.GetImage(fingerprint)`: a record, the distinguished
`"not found"` error string, or any other error. -/
inductive LookupResult where
  | found (img : ImageRecord)
  | notFound
  | otherError
  deriving DecidableEq, Repr

/-- Observable outcome of `resourceLxdBuiltImageRead`: the returned error,
the resource id after the call, the values written to `fingerprint`,
`created_at` and `aliases`, and whether the invocation ended in a Go
runtime panic. -/
structure ReadOutcome where
  err : Bool := false
  idAfter : String
  fingerprintSet : Option String := none
  createdAtSet : Option Int := none
  visibleAliases : Option (List String) := none
  panicked : Bool := false
  deriving DecidableEq, Repr

/-- Source: `resourceLxdBuiltImageRead` (lines 322-365). The stored id is
parsed unconditionally (`none` models the `parts[1]` panic). A lookup
that errors with `"not found"` clears the id (`d.SetId("")`) and returns
nil; any other lookup error is returned with the id unchanged. On a
successful lookup the fingerprint and timestamp are stored (lines
341-342), and then line 350 runs
`d.Get("copied_aliases").([]interface{})`: the resource schema (lines
30-61) declares no `copied_aliases` key, so `d.Get` returns nil and the
non-comma-ok type assertion panics — on every found-path Read, before
the alias filter of lines 355-361 runs and before `d.Set("aliases")`.
The found branch therefore records a panic and stores no alias list.
`configAliases` and `copiedAliases` model the resource-data lists the
filter was meant to use; the panic happens before either value is
produced, so neither influences the outcome. -/
def resourceLxdBuiltImageRead (id : String) (getServerOk : Bool) (lookup : LookupResult)
    (configAliases copiedAliases : List String) : Option ReadOutcome :=
  if !getServerOk then some { err := true, idAfter := id }
  else
    (newbuiltImageIDFromResourceID id).map fun bid =>
      match lookup with
      | .notFound => { idAfter := "" }
      | .otherError => { err := true, idAfter := id }
      | .found img =>
        { idAfter := id,
          fingerprintSet := some bid.fingerprint,
          createdAtSet := some img.createdAt,
          visibleAliases := none,
          panicked := true }

/-- Source: `resourceLxdBuiltImageDelete` (lines 283-299): parses the id
unconditionally, then `DeleteImage(id.fingerprint)` and `op.Wait()`.
Returns `none` for the parse panic, otherwise whether both calls
succeeded. -/
def resourceLxdBuiltImageDelete (id : String) (getServerOk deleteOk waitOk : Bool) :
    Option Bool :=
  if !getServerOk then some false
  else (newbuiltImageIDFromResourceID id).map fun _ => deleteOk && waitOk

/-- Source: `resourceLxdBuiltImageExists` (lines 301-320): parses the id
unconditionally, then `GetImage(id.fingerprint)`; `"not found"` yields
`(false, nil)`, another error `(false, err)`, success `(true, nil)`.
The pair is `(exists, errored)`; `none` models the parse panic. -/
def resourceLxdBuiltImageExists (id : String) (getServerOk : Bool) (lookup : LookupResult) :
    Option (Bool × Bool) :=
  if !getServerOk then some (false, true)
  else
    (newbuiltImageIDFromResourceID id).map fun _ =>
      match lookup with
      | .found _ => (true, false)
      | .notFound => (false, false)
      | .otherError => (false, true)

/-! ### Helper lemmas about the identity parse -/

theorem data_resourceID (remote fingerprint : String) :
    ((newbuiltImageID remote fingerprint).resourceID).data
      = remote.data ++ '/' :: fingerprint.data := by
  show (remote ++ "/" ++ fingerprint).data = _
  simp [String.data_append]

theorem parse_isSome (id : String) :
    (newbuiltImageIDFromResourceID id).isSome = decide (('/' : Char) ∈ id.data) := by
  unfold newbuiltImageIDFromResourceID
  by_cases h : ('/' : Char) ∈ id.data
  · rw [splitN2_mem '/' id.data h]
    simp [h]
  · rw [splitN2_not_mem '/' id.data h]
    simp [h]

/-! ### Helper lemmas about alias reconciliation -/

theorem searchStrings_get (x : String) :
    ∀ (l : List String), l.Sorted (· ≤ ·) →
      (l.get? (searchStrings l x) = some x ↔ x ∈ l)
  | [], _ => by simp [searchStrings]
  | y :: ys, h => by
    rw [List.sorted_cons] at h
    by_cases hlt : y < x
    · have hcond : decide (y < x) = true := decide_eq_true hlt
      have hsearch : searchStrings (y :: ys) x = (searchStrings ys x) + 1 := by
        simp only [searchStrings, List.takeWhile_cons, hcond, if_true, List.length_cons]
      have hne : ¬ x = y := fun e => absurd (e ▸ hlt) (lt_irrefl x)
      rw [hsearch, List.get?_cons_succ, searchStrings_get x ys h.2]
      simp [List.mem_cons, hne]
    · have hcond : decide (y < x) = false := decide_eq_false hlt
      have hsearch : searchStrings (y :: ys) x = 0 := by
        simp only [searchStrings, List.takeWhile_cons, hcond, Bool.false_eq_true, if_false,
          List.length_nil]
      rw [hsearch, List.get?_cons_zero]
      constructor
      · intro hy
        have hyx : y = x := Option.some_inj.mp hy
        rw [← hyx]
        exact List.mem_cons_self y ys
      · intro hmem
        rcases List.mem_cons.mp hmem with h1 | h2
        · rw [h1]
        · have hle : x ≤ y := le_of_not_lt hlt
          have hxy : x = y := le_antisymm hle (h.1 x h2)
          rw [hxy]

theorem GetExistingAliases_sorted (names : List String) (store : List ImageAliasesEntry)
    (h : names.Sorted (· ≤ ·)) :
    GetExistingAliases names store = store.filter (fun e => decide (e.name ∈ names)) := by
  unfold GetExistingAliases
  apply List.filter_congr
  intro e _
  rw [decide_eq_decide]
  exact searchStrings_get e.name names h

theorem filter_isDelete_map_delete (l : List String) :
    (l.map AliasOp.delete).filter AliasOp.isDelete = l.map AliasOp.delete := by
  induction l with
  | nil => rfl
  | cons a t ih => simp [AliasOp.isDelete, ih]

theorem filter_isDelete_map_create (fp : String) (l : List String) :
    (l.map (fun a => AliasOp.create a fp)).filter AliasOp.isDelete = [] := by
  induction l with
  | nil => rfl
  | cons a t ih => simp [AliasOp.isDelete, ih]

theorem filter_isCreate_map_delete (l : List String) :
    (l.map AliasOp.delete).filter AliasOp.isCreate = [] := by
  induction l with
  | nil => rfl
  | cons a t ih => simp [AliasOp.isCreate, ih]

theorem filter_isCreate_map_create (fp : String) (l : List String) :
    (l.map (fun a => AliasOp.create a fp)).filter AliasOp.isCreate
      = l.map (fun a => AliasOp.create a fp) := by
  induction l with
  | nil => rfl
  | cons a t ih => simp [AliasOp.isCreate, ih]

/-- Every operation of `reconcileOps`-style lists is a delete or a create,
and a `map delete ++ map create` list splits as its delete-filter followed
by its create-filter: the "all deletes before all creates" shape. -/
theorem deletes_then_creates (fp : String) (dels crs : List String) :
    ((dels.map AliasOp.delete ++ crs.map (fun a => AliasOp.create a fp)).filter AliasOp.isDelete)
      ++ ((dels.map AliasOp.delete
            ++ crs.map (fun a => AliasOp.create a fp)).filter AliasOp.isCreate)
      = dels.map AliasOp.delete ++ crs.map (fun a => AliasOp.create a fp) := by
  rw [List.filter_append, List.filter_append, filter_isDelete_map_delete,
    filter_isDelete_map_create, filter_isCreate_map_delete, filter_isCreate_map_create]
  simp

/-- Whether an operation is a create whose target is `fp`, or a delete. -/
def createTargetIs (fp : String) : AliasOp → Bool
  | .delete _ => true
  | .create _ t => t = fp

theorem all_createTargetIs (fp : String) (dels crs : List String) :
    (dels.map AliasOp.delete ++ crs.map (fun a => AliasOp.create a fp)).all
      (createTargetIs fp) = true := by
  rw [List.all_append]
  apply Bool.and_eq_true_iff.mpr
  constructor
  · rw [List.all_eq_true]
    intro op hop
    rcases List.mem_map.mp hop with ⟨a, _, rfl⟩
    rfl
  · rw [List.all_eq_true]
    intro op hop
    rcases List.mem_map.mp hop with ⟨a, _, rfl⟩
    simp [createTargetIs]

theorem runOpsBestEffort_attempts_all (opOk : AliasOp → Bool) :
    ∀ (ops : List AliasOp), (runOpsBestEffort opOk ops).1 = ops
  | [] => rfl
  | op :: rest => by
    simp [runOpsBestEffort, runOpsBestEffort_attempts_all opOk rest]

theorem runOpsFailFast_ok_iff (opOk : AliasOp → Bool) :
    ∀ (ops : List AliasOp), (runOpsFailFast opOk ops).1 = none ↔ ops.all opOk = true
  | [] => by simp [runOpsFailFast]
  | op :: rest => by
    by_cases h : opOk op = true
    · simp [runOpsFailFast, h, runOpsFailFast_ok_iff opOk rest]
    · simp [runOpsFailFast, h]

theorem runOpsFailFast_attempted (opOk : AliasOp → Bool) :
    ∀ (ops : List AliasOp),
      (runOpsFailFast opOk ops).2 = ops.takeWhile opOk ++ (ops.dropWhile opOk).take 1
  | [] => rfl
  | op :: rest => by
    by_cases h : opOk op = true
    · simp [runOpsFailFast, h, List.takeWhile_cons, List.dropWhile_cons,
        runOpsFailFast_attempted opOk rest]
    · simp [runOpsFailFast, h, List.takeWhile_cons, List.dropWhile_cons]

theorem countP_isDelete_shape (fp : String) (dels crs : List String) :
    (dels.map AliasOp.delete ++ crs.map (fun a => AliasOp.create a fp)).countP AliasOp.isDelete
      = dels.length := by
  rw [List.countP_append]
  have h1 : (dels.map AliasOp.delete).countP AliasOp.isDelete = dels.length := by
    induction dels with
    | nil => rfl
    | cons a t ih => simp [List.countP_cons, AliasOp.isDelete, ih]
  have h2 : (crs.map (fun a => AliasOp.create a fp)).countP AliasOp.isDelete = 0 := by
    induction crs with
    | nil => rfl
    | cons a t ih => simp [List.countP_cons, AliasOp.isDelete, ih]
  rw [h1, h2]
  omega

theorem countP_isCreate_shape (fp : String) (dels crs : List String) :
    (dels.map AliasOp.delete ++ crs.map (fun a => AliasOp.create a fp)).countP AliasOp.isCreate
      = crs.length := by
  rw [List.countP_append]
  have h1 : (dels.map AliasOp.delete).countP AliasOp.isCreate = 0 := by
    induction dels with
    | nil => rfl
    | cons a t ih => simp [List.countP_cons, AliasOp.isCreate, ih]
  have h2 : (crs.map (fun a => AliasOp.create a fp)).countP AliasOp.isCreate = crs.length := by
    induction crs with
    | nil => rfl
    | cons a t ih => simp [List.countP_cons, AliasOp.isCreate, ih]
  rw [h1, h2]
  omega

/-- The operations of `ensureImageAliases` in closed form: one delete per
store alias whose name occurs among the requested names, then one create
per requested alias, bound to the fingerprint. -/
theorem ensureImageAliasesOps_eq (aliases : List ImageAlias)
    (store : List ImageAliasesEntry) (fp : String) :
    ensureImageAliasesOps aliases store fp
      = ((store.filter (fun e => decide (e.name ∈ aliases.map ImageAlias.name))).map
           ImageAliasesEntry.name).map AliasOp.delete
        ++ (aliases.map ImageAlias.name).map (fun a => AliasOp.create a fp) := by
  unfold ensureImageAliasesOps
  by_cases he : aliases.isEmpty
  · rw [if_pos he]
    cases aliases with
    | nil => simp
    | cons a t => simp [List.isEmpty] at he
  · rw [if_neg he,
      GetExistingAliases_sorted _ _ (List.sorted_insertionSort _ _)]
    have hmem : store.filter
          (fun e => decide (e.name ∈ List.insertionSort (· ≤ ·) (aliases.map ImageAlias.name)))
        = store.filter (fun e => decide (e.name ∈ aliases.map ImageAlias.name)) := by
      apply List.filter_congr
      intro e _
      rw [decide_eq_decide]
      exact (List.perm_insertionSort _ _).mem_iff
    rw [hmem]
    simp only [List.map_map]
    rfl

/-! ### Theorems for the claims -/

/-- C1 (amended): the Update path issues exactly `|A − B|` deletes and
`|B − A|` creates, each create binding the name to the target
fingerprint, with every delete before any create; `ensureImageAliases`
however issues one delete per existing store alias whose name is among
the desired names (`|A ∩ B|`, not `|A − B|`) and one create per desired
alias (`|B|`, not `|B − A|`), again with every create bound to the
fingerprint and all deletes first. -/
theorem c1_alias_reconciliation_amended (oldSet newSet : Finset String) (fp : String)
    (aliases : List ImageAlias) (store : List ImageAliasesEntry) :
    ((updateAliasOps oldSet newSet fp).countP AliasOp.isDelete = (oldSet \ newSet).card
      ∧ (updateAliasOps oldSet newSet fp).countP AliasOp.isCreate = (newSet \ oldSet).card
      ∧ (updateAliasOps oldSet newSet fp).all (createTargetIs fp) = true
      ∧ (updateAliasOps oldSet newSet fp).filter AliasOp.isDelete
          ++ (updateAliasOps oldSet newSet fp).filter AliasOp.isCreate
          = updateAliasOps oldSet newSet fp)
    ∧ ((ensureImageAliasesOps aliases store fp).countP AliasOp.isDelete
        = (store.filter (fun e => decide (e.name ∈ aliases.map ImageAlias.name))).length
      ∧ (ensureImageAliasesOps aliases store fp).countP AliasOp.isCreate = aliases.length
      ∧ (ensureImageAliasesOps aliases store fp).all (createTargetIs fp) = true
      ∧ (ensureImageAliasesOps aliases store fp).filter AliasOp.isDelete
          ++ (ensureImageAliasesOps aliases store fp).filter AliasOp.isCreate
          = ensureImageAliasesOps aliases store fp) := by
  constructor
  · refine ⟨?_, ?_, ?_, ?_⟩
    · rw [updateAliasOps, countP_isDelete_shape, Finset.length_sort]
    · rw [updateAliasOps, countP_isCreate_shape, Finset.length_sort]
    · rw [updateAliasOps]
      exact all_createTargetIs fp _ _
    · rw [updateAliasOps]
      exact deletes_then_creates fp _ _
  · rw [ensureImageAliasesOps_eq]
    refine ⟨?_, ?_, all_createTargetIs fp _ _, deletes_then_creates fp _ _⟩
    · rw [countP_isDelete_shape, List.length_map]
    · rw [countP_isCreate_shape, List.length_map]

/-- C1 counterexample: with existing store aliases A = {x} and desired
aliases B = {x}, `ensureImageAliases` issues one delete and one create,
not `|A − B| = 0` deletes and `|B − A| = 0` creates as the claim states
for the initial-creation context. -/
theorem c1_ensure_counterexample :
    ¬((ensureImageAliasesOps [{ name := "x" }] [{ name := "x" }] "f").countP
        AliasOp.isDelete = 0
      ∧ (ensureImageAliasesOps [{ name := "x" }] [{ name := "x" }] "f").countP
          AliasOp.isCreate = 0) := by
  rw [ensureImageAliasesOps_eq]
  decide

/-- C6 (amended): alias reconciliation is per-alias best-effort only in
the creation-time path: `ensureImageAliases` attempts every computed
operation and never returns an error because of a failed per-alias
operation; in the Update path the first failed delete or create is
returned as the call's error, and the attempted operations stop at that
failure (the successful prefix plus the failing operation). -/
theorem c6_best_effort_only_at_creation (aliases : List ImageAlias)
    (store : List ImageAliasesEntry) (fp : String) (opOk : AliasOp → Bool)
    (id : String) (oldSet newSet : Finset String) (bid : builtImageID)
    (hbid : newbuiltImageIDFromResourceID id = some bid) :
    (∃ logs, ensureImageAliases aliases true store fp opOk
        = .ok (ensureImageAliasesOps aliases store fp, logs))
    ∧ resourceLxdBuiltImageUpdate id true oldSet newSet opOk
        = some (runOpsFailFast opOk (updateAliasOps oldSet newSet bid.fingerprint))
    ∧ ((runOpsFailFast opOk (updateAliasOps oldSet newSet bid.fingerprint)).1 = none
        ↔ (updateAliasOps oldSet newSet bid.fingerprint).all opOk = true)
    ∧ (runOpsFailFast opOk (updateAliasOps oldSet newSet bid.fingerprint)).2
        = (updateAliasOps oldSet newSet bid.fingerprint).takeWhile opOk
          ++ ((updateAliasOps oldSet newSet bid.fingerprint).dropWhile opOk).take 1 := by
  refine ⟨?_, ?_, runOpsFailFast_ok_iff opOk _, runOpsFailFast_attempted opOk _⟩
  · unfold ensureImageAliases
    by_cases he : aliases.isEmpty
    · rw [if_pos he]
      refine ⟨[], ?_⟩
      cases aliases with
      | nil => simp [ensureImageAliasesOps]
      | cons a t => simp [List.isEmpty] at he
    · rw [if_neg he]
      refine ⟨(runOpsBestEffort opOk (ensureImageAliasesOps aliases store fp)).2, ?_⟩
      simp only [if_true]
      exact congrArg Except.ok (Prod.ext (runOpsBestEffort_attempts_all opOk _) rfl)
  · simp [resourceLxdBuiltImageUpdate, hbid]

/-- C6 witness: the amended statement applied at a concrete input. -/
theorem c6_best_effort_only_at_creation_witness :
    (∃ logs, ensureImageAliases [{ name := "a" }] true [] "f" (fun _ => true)
        = .ok (ensureImageAliasesOps [{ name := "a" }] [] "f", logs))
    ∧ resourceLxdBuiltImageUpdate "local/f" true {"a"} ∅ (fun _ => true)
        = some (runOpsFailFast (fun _ => true) (updateAliasOps {"a"} ∅ "f"))
    ∧ ((runOpsFailFast (fun _ => true) (updateAliasOps {"a"} ∅ "f")).1 = none
        ↔ (updateAliasOps {"a"} ∅ "f").all (fun _ => true) = true)
    ∧ (runOpsFailFast (fun _ => true) (updateAliasOps {"a"} ∅ "f")).2
        = (updateAliasOps {"a"} ∅ "f").takeWhile (fun _ => true)
          ++ ((updateAliasOps {"a"} ∅ "f").dropWhile (fun _ => true)).take 1 :=
  c6_best_effort_only_at_creation [{ name := "a" }] [] "f" (fun _ => true)
    "local/f" {"a"} ∅ { remote := "local", fingerprint := "f" } (by decide)

/-- C6 counterexample: in the Update path with old aliases {a, b}, new
aliases ∅ and a store on which every delete fails, the call returns the
first delete's error and never attempts the second delete — the claim's
best-effort property fails for the Update context. -/
theorem c6_update_counterexample :
    resourceLxdBuiltImageUpdate "local/f" true {"a", "b"} ∅ (fun _ => false)
      = some (some (.delete "a"), [.delete "a"]) := by
  have hparse : newbuiltImageIDFromResourceID "local/f"
      = some { remote := "local", fingerprint := "f" } := by decide
  have hab : ("a" : String) ≤ "b" := le_of_lt (String.lt_iff_toList_lt.mpr (by decide))
  have hsort : (({"a", "b"} : Finset String) \ ∅).sort (· ≤ ·) = ["a", "b"] := by
    rw [Finset.sdiff_empty]
    rw [show ({"a", "b"} : Finset String) = insert "a" {"b"} from rfl]
    rw [Finset.sort_insert]
    · rw [Finset.sort_singleton]
    · intro b hb
      rw [Finset.mem_singleton] at hb
      rw [hb]
      exact hab
    · decide
  have hsort2 : ((∅ : Finset String) \ {"a", "b"}).sort (· ≤ ·) = [] := by
    rw [Finset.empty_sdiff, Finset.sort_empty]
  simp only [resourceLxdBuiltImageUpdate, hparse, Option.map_some', updateAliasOps,
    hsort, hsort2]
  rfl

/-! ### Concrete Create environments -/

/-- A fail-fast run in which every store operation succeeds attempts every
operation and reports no error. -/
theorem runOpsFailFast_all_ok (ops : List AliasOp) :
    runOpsFailFast (fun _ => true) ops = (none, ops) := by
  induction ops with
  | nil => rfl
  | cons op rest ih => simp [runOpsFailFast, ih]

theorem stageAliases_spec (env : CreateEnv) :
    (stageAliases env).metaFileArg = none
    ∧ (stageAliases env).reachedTransfer = true
    ∧ (stageAliases env).nilCloseInvoked = true
    ∧ ((stageAliases env).persistedId
        = if (stageAliases env).err = none
          then some ((newbuiltImageID env.remote env.newFingerprint).resourceID)
          else none) := by
  unfold stageAliases
  split_ifs <;> simp_all

theorem stageTransfer_spec (env : CreateEnv) :
    (stageTransfer env).metaFileArg = none
    ∧ (stageTransfer env).reachedTransfer = true
    ∧ (stageTransfer env).nilCloseInvoked = true
    ∧ ((stageTransfer env).persistedId
        = if (stageTransfer env).err = none
          then some ((newbuiltImageID env.remote env.newFingerprint).resourceID)
          else none)
    ∧ ((stageTransfer env).err = none →
        env.transferOk = true ∧ env.cancelableWaitOk = true) := by
  have hs := stageAliases_spec env
  unfold stageTransfer
  split_ifs <;> simp_all

theorem stageOpenArtifacts_spec (env : CreateEnv) :
    (stageOpenArtifacts env).metaFileArg = none
    ∧ ((stageOpenArtifacts env).reachedTransfer = true →
        (stageOpenArtifacts env).nilCloseInvoked = true)
    ∧ ((stageOpenArtifacts env).persistedId
        = if (stageOpenArtifacts env).err = none
          then some ((newbuiltImageID env.remote env.newFingerprint).resourceID)
          else none)
    ∧ ((stageOpenArtifacts env).err = none →
        (stageOpenArtifacts env).reachedTransfer = true
        ∧ env.transferOk = true ∧ env.cancelableWaitOk = true) := by
  have hs := stageTransfer_spec env
  unfold stageOpenArtifacts
  split_ifs <;> simp_all

theorem stageAliasConflict_spec (env : CreateEnv) :
    (stageAliasConflict env).metaFileArg = none
    ∧ ((stageAliasConflict env).reachedTransfer = true →
        (stageAliasConflict env).nilCloseInvoked = true)
    ∧ ((stageAliasConflict env).persistedId
        = if (stageAliasConflict env).err = none
          then some ((newbuiltImageID env.remote env.newFingerprint).resourceID)
          else none)
    ∧ ((stageAliasConflict env).err = none →
        (stageAliasConflict env).reachedTransfer = true
        ∧ env.transferOk = true ∧ env.cancelableWaitOk = true) := by
  have hs := stageOpenArtifacts_spec env
  unfold stageAliasConflict
  cases List.find? (fun a => decide (a ∈ env.storeAliasNames)) env.requestedAliases with
  | some a => simp
  | none => simpa using hs

theorem resourceLxdBuiltImageCreate_spec (env : CreateEnv) :
    (resourceLxdBuiltImageCreate env).metaFileArg = none
    ∧ ((resourceLxdBuiltImageCreate env).reachedTransfer = true →
        (resourceLxdBuiltImageCreate env).nilCloseInvoked = true)
    ∧ ((resourceLxdBuiltImageCreate env).persistedId
        = if (resourceLxdBuiltImageCreate env).err = none
          then some ((newbuiltImageID env.remote env.newFingerprint).resourceID)
          else none)
    ∧ ((resourceLxdBuiltImageCreate env).err = none →
        (resourceLxdBuiltImageCreate env).reachedTransfer = true
        ∧ env.waitOk = true ∧ env.transferOk = true ∧ env.cancelableWaitOk = true) := by
  have hs := stageAliasConflict_spec env
  unfold resourceLxdBuiltImageCreate
  split_ifs <;> simp_all

/-- A Create environment in which every external call succeeds, the build
produces both artifacts, and no aliases are requested. -/
def okCreateEnv : CreateEnv :=
  { remote := "local", tempDirOk := true, tempFileOk := true, writeFileOk := true,
    stdoutPipeOk := true, startOk := true, waitOk := true, metaPresent := true,
    rootfsPresent := true, getServerOk := true, priorFingerprint := none,
    getImageOk := true, requestedAliases := [], storeAliasNames := [],
    openMetaOk := true, openRootfsOk := true, transferOk := true,
    cancelableWaitOk := true, newFingerprint := "f", getAliasesOk := true,
    storeAliasEntries := [] }

/-- `okCreateEnv` with the build's rootfs.squashfs artifact absent. -/
def missingRootfsEnv : CreateEnv := { okCreateEnv with rootfsPresent := false }

/-- `okCreateEnv` with one requested alias that already exists on the
destination store. -/
def conflictEnv : CreateEnv :=
  { okCreateEnv with requestedAliases := ["x"], storeAliasNames := ["x"] }

/-- C2 (the code evaluated at the claim's failing input): with a build
subprocess that exits successfully but leaves no rootfs.squashfs, Create
does not fail at the artifact check — that check only logs, and the
embedded error type has no artifact-missing case at all — the invocation
instead fails later at the `os.Open` of the missing rootfs, which is what
keeps it from the transfer stage. -/
theorem c2_missing_rootfs_behavior :
    (resourceLxdBuiltImageCreate missingRootfsEnv).err = some .openRootfs
    ∧ (resourceLxdBuiltImageCreate missingRootfsEnv).reachedTransfer = false := by
  decide

/-- C4: in every Create invocation that reaches the transfer stage, the
`MetaFile` argument of the image-create call is the never-assigned nil
`meta_reader` (the opened metadata file went to the shadowing variable
`meta` on line 181), and the deferred `meta_reader.Close()` runs on that
nil handle — so the claim's "both handles supplied and both closed
without a nil close" fails on the code. -/
theorem c4_nil_meta_reader (env : CreateEnv)
    (h : (resourceLxdBuiltImageCreate env).reachedTransfer = true) :
    (resourceLxdBuiltImageCreate env).metaFileArg = none
    ∧ (resourceLxdBuiltImageCreate env).nilCloseInvoked = true :=
  ⟨(resourceLxdBuiltImageCreate_spec env).1,
   (resourceLxdBuiltImageCreate_spec env).2.1 h⟩

/-- C4 witness: `okCreateEnv` reaches the transfer stage. -/
theorem c4_nil_meta_reader_witness :
    (resourceLxdBuiltImageCreate okCreateEnv).reachedTransfer = true
    ∧ ((resourceLxdBuiltImageCreate okCreateEnv).metaFileArg = none
      ∧ (resourceLxdBuiltImageCreate okCreateEnv).nilCloseInvoked = true) :=
  ⟨by decide, c4_nil_meta_reader okCreateEnv (by decide)⟩

/-- C9: Create persists the composite resource identity exactly when it
returns no error — every failure leaves the identity unset — and a
run that returns no error reached the transfer stage with the transfer,
wait and build-wait calls all successful. -/
theorem c9_create_atomic_identity (env : CreateEnv) :
    ((resourceLxdBuiltImageCreate env).persistedId
      = (if (resourceLxdBuiltImageCreate env).err = none
         then some ((newbuiltImageID env.remote env.newFingerprint).resourceID)
         else none))
    ∧ ((resourceLxdBuiltImageCreate env).err = none →
        (resourceLxdBuiltImageCreate env).reachedTransfer = true
          ∧ env.waitOk = true ∧ env.transferOk = true ∧ env.cancelableWaitOk = true) :=
  ⟨(resourceLxdBuiltImageCreate_spec env).2.2.1,
   (resourceLxdBuiltImageCreate_spec env).2.2.2⟩

/-- C9 witness: the all-success environment returns no error, and the
theorem's implication applied there. -/
theorem c9_create_atomic_identity_witness :
    (resourceLxdBuiltImageCreate okCreateEnv).err = none
    ∧ ((resourceLxdBuiltImageCreate okCreateEnv).reachedTransfer = true
      ∧ okCreateEnv.waitOk = true ∧ okCreateEnv.transferOk = true
      ∧ okCreateEnv.cancelableWaitOk = true) :=
  ⟨by decide, (c9_create_atomic_identity okCreateEnv).2 (by decide)⟩

/-- C7: when a requested alias already exists on the destination store
(and no earlier stage failed first), Create returns the alias-conflict
error before the transfer stage, with no alias operation issued and no
identity persisted; and the check runs only at creation — the Update path
issues the create for every added alias unconditionally, with no
conflict pre-check against the store. -/
theorem c7_alias_conflict_fails_fast (env : CreateEnv) (a : String)
    (h1 : env.tempDirOk = true) (h2 : env.tempFileOk = true)
    (h3 : env.writeFileOk = true) (h4 : env.stdoutPipeOk = true)
    (h5 : env.startOk = true) (h6 : env.waitOk = true) (h7 : env.getServerOk = true)
    (h8 : env.priorFingerprint.isSome = true → env.getImageOk = true)
    (hmem : a ∈ env.requestedAliases) (hstore : a ∈ env.storeAliasNames) :
    (∃ n, (resourceLxdBuiltImageCreate env).err = some (.aliasConflict n)
        ∧ n ∈ env.requestedAliases ∧ n ∈ env.storeAliasNames)
    ∧ (resourceLxdBuiltImageCreate env).reachedTransfer = false
    ∧ (resourceLxdBuiltImageCreate env).aliasOpsIssued = []
    ∧ (resourceLxdBuiltImageCreate env).persistedId = none
    ∧ (∀ id oldSet newSet n bid,
        newbuiltImageIDFromResourceID id = some bid → n ∈ newSet → n ∉ oldSet →
        ∃ ops, resourceLxdBuiltImageUpdate id true oldSet newSet (fun _ => true)
            = some (none, ops)
          ∧ AliasOp.create n bid.fingerprint ∈ ops) := by
  have hfind : (List.find? (fun b => decide (b ∈ env.storeAliasNames))
      env.requestedAliases).isSome = true :=
    List.find?_isSome.mpr ⟨a, hmem, by simpa using hstore⟩
  obtain ⟨c, hc⟩ := Option.isSome_iff_exists.mp hfind
  have hcp : c ∈ env.storeAliasNames := by
    have hfs := List.find?_some hc
    simpa using hfs
  have hcm : c ∈ env.requestedAliases := List.mem_of_find?_eq_some hc
  have h9 : (env.priorFingerprint.isSome && !env.getImageOk) = false := by
    cases hps : env.priorFingerprint.isSome with
    | false => simp
    | true => simp [h8 hps]
  have hcreate : resourceLxdBuiltImageCreate env
      = { err := some (.aliasConflict c) } := by
    unfold resourceLxdBuiltImageCreate stageAliasConflict
    rw [h1, h2, h3, h4, h5, h6, h7, h9, hc]
    rfl
  rw [hcreate]
  refine ⟨⟨c, rfl, hcm, hcp⟩, rfl, rfl, rfl, ?_⟩
  intro id oldSet newSet n bid hbid hn hno
  refine ⟨updateAliasOps oldSet newSet bid.fingerprint, ?_, ?_⟩
  · simp [resourceLxdBuiltImageUpdate, hbid, runOpsFailFast_all_ok]
  · unfold updateAliasOps
    apply List.mem_append_right
    exact List.mem_map_of_mem _ ((Finset.mem_sort _).mpr (Finset.mem_sdiff.mpr ⟨hn, hno⟩))

/-- C7 witness: the conflict environment with requested alias x already
on the store. -/
theorem c7_alias_conflict_fails_fast_witness :
    (∃ n, (resourceLxdBuiltImageCreate conflictEnv).err = some (.aliasConflict n)
        ∧ n ∈ conflictEnv.requestedAliases ∧ n ∈ conflictEnv.storeAliasNames)
    ∧ (resourceLxdBuiltImageCreate conflictEnv).reachedTransfer = false
    ∧ (resourceLxdBuiltImageCreate conflictEnv).aliasOpsIssued = []
    ∧ (resourceLxdBuiltImageCreate conflictEnv).persistedId = none
    ∧ (∀ id oldSet newSet n bid,
        newbuiltImageIDFromResourceID id = some bid → n ∈ newSet → n ∉ oldSet →
        ∃ ops, resourceLxdBuiltImageUpdate id true oldSet newSet (fun _ => true)
            = some (none, ops)
          ∧ AliasOp.create n bid.fingerprint ∈ ops) :=
  c7_alias_conflict_fails_fast conflictEnv "x" (by decide) (by decide) (by decide)
    (by decide) (by decide) (by decide) (by decide) (by decide) (by decide) (by decide)

/-- C5 (the code evaluated at the claim's input): on a Read whose lookup
finds the image, the `copied_aliases` type assertion of line 350 panics
before the alias filter runs — the schema declares no `copied_aliases`
key, so `d.Get` returns nil and the non-comma-ok `[]interface{}`
assertion fails — hence at the claim's concrete instance (copied
{a, b}, configured {a}, store image aliases [a, b, c]) Read panics and
stores no visible alias list at all, instead of the claimed {a, c}. -/
theorem c5_read_copied_aliases_panic :
    ∃ out, resourceLxdBuiltImageRead "local/f" true
        (.found { createdAt := 0, aliases := ["a", "b", "c"] }) ["a"] ["a", "b"]
        = some out
      ∧ out.panicked = true ∧ out.visibleAliases = none := by
  refine ⟨_, rfl, rfl, rfl⟩

/-- C8: when the store lookup reports not-found, Read clears the persisted
identity (sets the id to the empty string) and returns no error; on any
other lookup failure it returns the error and leaves the identity
unchanged. -/
theorem c8_read_notfound_clears_id (id : String) (cfg cpd : List String)
    (hid : ('/' : Char) ∈ id.data) :
    (∃ out, resourceLxdBuiltImageRead id true .notFound cfg cpd = some out
       ∧ out.err = false ∧ out.idAfter = "")
    ∧ (∃ out, resourceLxdBuiltImageRead id true .otherError cfg cpd = some out
       ∧ out.err = true ∧ out.idAfter = id) := by
  have hsome : (newbuiltImageIDFromResourceID id).isSome = true := by
    rw [parse_isSome]
    simpa using hid
  obtain ⟨bid, hbid⟩ := Option.isSome_iff_exists.mp hsome
  constructor
  · exact ⟨{ idAfter := "" }, by simp [resourceLxdBuiltImageRead, hbid], rfl, rfl⟩
  · exact ⟨{ err := true, idAfter := id }, by simp [resourceLxdBuiltImageRead, hbid],
      rfl, rfl⟩

/-- C8 witness at a concrete id. -/
theorem c8_read_notfound_clears_id_witness :
    (∃ out, resourceLxdBuiltImageRead "local/f" true .notFound [] [] = some out
       ∧ out.err = false ∧ out.idAfter = "")
    ∧ (∃ out, resourceLxdBuiltImageRead "local/f" true .otherError [] [] = some out
       ∧ out.err = true ∧ out.idAfter = "local/f") :=
  c8_read_notfound_clears_id "local/f" [] [] (by decide)

/-- C3: the composite identity round-trips — for every remote containing
no `/` and every nonempty fingerprint, parsing the serialized form
(`newbuiltImageIDFromResourceID` of `resourceID` of
`newbuiltImageID remote fingerprint`) yields back exactly
`(remote, fingerprint)`. -/
theorem c3_identity_roundtrip (remote fingerprint : String)
    (hremote : ('/' : Char) ∉ remote.data) (hfp : fingerprint ≠ "") :
    newbuiltImageIDFromResourceID ((newbuiltImageID remote fingerprint).resourceID)
      = some (newbuiltImageID remote fingerprint) := by
  unfold newbuiltImageIDFromResourceID
  rw [data_resourceID, splitN2_append '/' remote.data fingerprint.data hremote]
  cases remote
  cases fingerprint
  rfl

/-- Witness for C3 at remote `"local"`, fingerprint `"abc123"`. -/
theorem c3_identity_roundtrip_witness :
    newbuiltImageIDFromResourceID ((newbuiltImageID "local" "abc123").resourceID)
      = some (newbuiltImageID "local" "abc123") :=
  c3_identity_roundtrip "local" "abc123" (by decide) (by decide)

/-- C10: parsing the persisted id is total exactly on strings containing
a `/`: for an id with a `/`, `newbuiltImageIDFromResourceID` returns the
prefix before the first `/` as the remote and the whole remainder as the
fingerprint (all index accesses in bounds); for a slash-free id the
`parts[1]` access is out of bounds (modelled as `none`) — and Update,
Delete, Exists and Read all apply this parse to the stored id
unconditionally, so each of them panics exactly on slash-free ids. -/
theorem c10_parse_total_exactly_on_slash (id : String) (hasChange : Bool)
    (oldSet newSet : Finset String) (opOk : AliasOp → Bool)
    (deleteOk waitOk : Bool) (lookup : LookupResult) (cfg cpd : List String) :
    newbuiltImageIDFromResourceID id
      = (if ('/' : Char) ∈ id.data
         then some { remote := String.mk (id.data.takeWhile (· ≠ '/')),
                     fingerprint := String.mk ((id.data.dropWhile (· ≠ '/')).tail) }
         else none)
    ∧ (resourceLxdBuiltImageUpdate id hasChange oldSet newSet opOk).isSome
        = decide (('/' : Char) ∈ id.data)
    ∧ (resourceLxdBuiltImageDelete id true deleteOk waitOk).isSome
        = decide (('/' : Char) ∈ id.data)
    ∧ (resourceLxdBuiltImageExists id true lookup).isSome
        = decide (('/' : Char) ∈ id.data)
    ∧ (resourceLxdBuiltImageRead id true lookup cfg cpd).isSome
        = decide (('/' : Char) ∈ id.data) := by
  refine ⟨?_, ?_, ?_, ?_, ?_⟩
  · unfold newbuiltImageIDFromResourceID
    by_cases h : ('/' : Char) ∈ id.data
    · rw [splitN2_mem '/' id.data h]
      simp [h]
    · rw [splitN2_not_mem '/' id.data h]
      simp [h]
  · rw [← parse_isSome]
    simp [resourceLxdBuiltImageUpdate]
  · rw [← parse_isSome]
    simp [resourceLxdBuiltImageDelete]
  · rw [← parse_isSome]
    simp [resourceLxdBuiltImageExists]
  · rw [← parse_isSome]
    simp [resourceLxdBuiltImageRead]

end BuiltImage
